import Mathlib

/-!
Verification of the PDF extraction pipeline (`pdf_extraction_pipeline.py`).

The development shallowly embeds the pipeline's data model and operations:
the Document Reader collaborator (PyMuPDF) is modelled as explicit data
(`Page`, `PDoc`, `PdfFile`), Python exceptions become `Except`, Python
floats become `ℚ`, and Python `set` objects are modelled as
insertion-ordered duplicate-free lists (CPython iteration order over a
set is an unspecified enumeration of its elements; the model fixes one
deterministic enumeration, which in particular is not sorted unless the
code sorts it).  File-system writes are modelled by returning the path
and content that would be written.
-/

namespace PdfPipeline

instance {ε α : Type} [DecidableEq ε] [DecidableEq α] : DecidableEq (Except ε α) :=
  fun a b =>
    match a, b with
    | .error e, .error f => decidable_of_iff (e = f) (by simp)
    | .error _, .ok _ => isFalse (by simp)
    | .ok _, .error _ => isFalse (by simp)
    | .ok x, .ok y => decidable_of_iff (x = y) (by simp)

/-- Model of a Python `set` insertion: add an element if not present. -/
def insertNew (l : List String) (x : String) : List String :=
  if x ∈ l then l else l ++ [x]

/-- Model of Python `set.update`: insert each element of `xs`. -/
def setAddAll (l : List String) (xs : List String) : List String :=
  xs.foldl insertNew l

/-- Insertion of a string into an already sorted list (ascending). -/
def insertSorted (x : String) : List String → List String
  | [] => [x]
  | y :: ys => if x ≤ y then x :: y :: ys else y :: insertSorted x ys

/-- Model of Python `sorted` on a list of strings (code-point lexicographic). -/
def sortStrings (l : List String) : List String :=
  l.foldr insertSorted []

/-- Number of whitespace-delimited tokens, as Python `len(s.split())`
counts them: the number of maximal non-whitespace runs of the character
sequence. -/
def pyWordCount (s : String) : Nat :=
  (s.toList.foldl
    (fun (st : Nat × Bool) c =>
      if c.isWhitespace then (st.1, false)
      else if st.2 then st else (st.1 + 1, true))
    (0, false)).1

/-- Model of Python `str.lower()`: character-wise lowercasing. -/
def pyLower (s : String) : String :=
  String.mk (s.toList.map Char.toLower)

/-- Fixed-point rendering of a rational with one decimal digit, modelling
Python `f"{x:.1f}"` (rounding to nearest; the model uses half-up ties). -/
def fmt1 (q : ℚ) : String :=
  let t : Int := (q * 10 + 1 / 2).floor
  toString (t / 10) ++ "." ++ toString ((t % 10).natAbs)

/-- Last path component, modelling `Path(p).name`. -/
def pathName (p : String) : String :=
  ((p.split (fun c => c = '/')).getLast?).getD p

/-- Final path component without its last extension, modelling `Path(p).stem`. -/
def pathStem (p : String) : String :=
  let n := pathName p
  match n.split (fun c => c = '.') with
  | [] => n
  | [_] => n
  | parts => String.intercalate "." parts.dropLast

/-! ## Document Reader data model

A `Span` is a run of text with one font and size; spans sit inside lines,
lines inside blocks.  `span.get('font', 'Unknown')` and
`span.get('size', 0)` are modelled with `Option` fields.  A block without
a `"lines"` key has `lines? = none`.  Fallible reader calls
(`get_text("dict")`, `get_images`, `extract_image`, `metadata`,
`load_page`, `fitz.open`) are `Except Unit` values carried by the data. -/

structure Span where
  font? : Option String
  size? : Option ℚ
deriving Repr, DecidableEq

structure Line where
  spans : List Span
deriving Repr, DecidableEq

structure Block where
  lines? : Option (List Line)
deriving Repr, DecidableEq

/-- Resolved image data, modelling the dict returned by `extract_image`
(each field read with `.get` and a default). -/
structure BaseImage where
  width? : Option Nat
  height? : Option Nat
  ext? : Option String
  image? : Option (List Nat)
deriving Repr, DecidableEq

/-- One opened page as the Document Reader exposes it. -/
structure Page where
  text : String
  textDict : Except Unit (List Block)
  getImages : Except Unit (List (Except Unit BaseImage))
  rect : List ℚ
deriving Repr, DecidableEq

/-- One opened document: the metadata mapping (whose read may fail) and the
pages, where entry `i` is the outcome of `load_page(i)` together with the
page extraction attempt (`Except.error` models the per-page exception). -/
structure PDoc where
  metadata : Except Unit (List (String × String))
  pages : List (Except Unit Page)
deriving Repr, DecidableEq

/-- One input file as the file system and reader expose it: existence,
size in MB, content digest, and the outcome of `fitz.open`. -/
structure PdfFile where
  path : String
  fileExists : Bool
  size_mb : ℚ
  hash : String
  doc : Except Unit PDoc
deriving Repr, DecidableEq

/-! ## Result data model -/

/-- Per-image descriptor appended to a page's `images` list. -/
structure ImageInfo where
  index : Nat
  width : Nat
  height : Nat
  ext : String
  size_bytes : Nat
deriving Repr, DecidableEq

/-- The per-page dict built by `_extract_page_content`. -/
structure PageContent where
  page_number : Nat
  text : String
  word_count : Nat
  char_count : Nat
  fonts : List String
  images : List ImageInfo
  bbox : List ℚ
deriving Repr, DecidableEq

structure TextStats where
  total_words : Nat
  total_chars : Nat
deriving Repr, DecidableEq

/-- The `extracted_data` dict stored in the `basic_extraction` field. -/
structure BasicExtraction where
  page_count : Nat
  text_stats : TextStats
  fonts_used : List String
  images_count : Nat
  metadata : List (String × String)
  pages : List PageContent
deriving Repr, DecidableEq

/-- The `PDFExtractionResult` dataclass, fields in source order. -/
structure PDFExtractionResult where
  file_path : String
  file_hash : String
  timestamp : String
  page_count : Nat
  total_words : Nat
  total_chars : Nat
  fonts_used : List String
  images_count : Nat
  metadata : List (String × String)
  pages : List PageContent
  extraction_time : ℚ
  file_size_mb : ℚ
  basic_extraction : BasicExtraction
deriving Repr, DecidableEq

/-- Mutable state of an `EfficientPDFExtractor` instance. -/
structure ExtractorState where
  output_dir : String
  enable_images : Bool
  processed_files : List String
deriving Repr, DecidableEq

/-! ## Page Extractor -/

/-- Font signature string built for one span:
`f"{span.get('font', 'Unknown')} ({span.get('size', 0):.1f}pt)"`. -/
def fontSignature (span : Span) : String :=
  (span.font?.getD "Unknown") ++ " (" ++ fmt1 (span.size?.getD 0) ++ "pt)"

/-- Fold of `fonts_on_page.add(font_info)` over blocks → lines → spans. -/
def collectFonts (blocks : List Block) : List String :=
  blocks.foldl
    (fun acc block =>
      match block.lines? with
      | some lines =>
          lines.foldl
            (fun acc line =>
              line.spans.foldl (fun acc span => insertNew acc (fontSignature span)) acc)
            acc
      | none => acc)
    []

/-- Image loop of `_extract_page_content`: enumerate the raw image list,
skip entries whose resolution fails, keep the enumeration index. -/
def collectImages (imgs : List (Except Unit BaseImage)) : List ImageInfo :=
  (imgs.foldl
    (fun (st : Nat × List ImageInfo) img =>
      match img with
      | .error _ => (st.1 + 1, st.2)
      | .ok b =>
          (st.1 + 1, st.2 ++
            [{ index := st.1, width := b.width?.getD 0, height := b.height?.getD 0,
               ext := b.ext?.getD "unknown", size_bytes := (b.image?.getD []).length }]))
    (0, [])).2

/-- `EfficientPDFExtractor._extract_page_content`. -/
def extract_page_content (enable_images : Bool) (page : Page) (page_num : Nat) :
    PageContent :=
  let text := page.text
  let word_count := if text = "" then 0 else pyWordCount text
  let char_count := text.length
  let fonts : List String :=
    if text ≠ "" ∧ 0 < word_count then
      match page.textDict with
      | .ok blocks => collectFonts blocks
      | .error _ => []
    else []
  let images : List ImageInfo :=
    if enable_images then
      match page.getImages with
      | .ok imgs => collectImages imgs
      | .error _ => []
    else []
  { page_number := page_num + 1
    text := text
    word_count := word_count
    char_count := char_count
    fonts := fonts
    images := images
    bbox := page.rect }

/-! ## Document Extractor -/

/-- Accumulator of the page loop in `extract_pdf_content`. -/
structure Acc where
  total_words : Nat
  total_chars : Nat
  all_fonts : List String
  total_images : Nat
  pages_content : List PageContent
deriving Repr, DecidableEq

/-- One iteration of the page loop: `load_page(page_num)` followed by
`_extract_page_content`; the whole body is inside `try/except`, so a
failed page leaves the accumulator unchanged (`continue`). -/
def pageStep (enable_images : Bool) (pages : List (Except Unit Page))
    (acc : Acc) (page_num : Nat) : Acc :=
  match pages.getD page_num (Except.error ()) with
  | .error _ => acc
  | .ok page =>
      let pc := extract_page_content enable_images page page_num
      { total_words := acc.total_words + pc.word_count
        total_chars := acc.total_chars + pc.char_count
        all_fonts := setAddAll acc.all_fonts pc.fonts
        total_images := acc.total_images + pc.images.length
        pages_content := acc.pages_content ++ [pc] }

/-- The `for page_num in range(len(doc))` loop of `extract_pdf_content`. -/
def pageLoop (enable_images : Bool) (pages : List (Except Unit Page)) : Acc :=
  (List.range pages.length).foldl (pageStep enable_images pages)
    ⟨0, 0, [], 0, []⟩

/-- Metadata cleaning: keep `key → value.strip()` for entries where
`value and value.strip()` is truthy. -/
def cleanMetadata (raw : List (String × String)) : List (String × String) :=
  raw.filterMap fun kv =>
    if kv.2 ≠ "" ∧ kv.2.trim ≠ "" then some (kv.1, kv.2.trim) else none

/-- Errors raised by `extract_pdf_content` itself. -/
inductive ExtractErr where
  | fileNotFound (path : String)
  | cannotOpen (path : String)
deriving Repr, DecidableEq

/-- `EfficientPDFExtractor.extract_pdf_content`.  Wall-clock quantities
(`timestamp`, `extraction_time`) are inputs of the model.  The cache check
on `processed_files` only logs; the hash is inserted on the success path. -/
def extract_pdf_content (st : ExtractorState) (file : PdfFile)
    (timestamp : String) (extraction_time : ℚ) (skip_cache : Bool) :
    Except ExtractErr (PDFExtractionResult × ExtractorState) :=
  if file.fileExists = false then
    .error (.fileNotFound file.path)
  else
    let file_size_mb := file.size_mb
    let file_hash := file.hash
    match file.doc with
    | .error _ => .error (.cannotOpen file.path)
    | .ok doc =>
        let metadata : List (String × String) :=
          match doc.metadata with
          | .ok raw => cleanMetadata raw
          | .error _ => []
        let acc := pageLoop st.enable_images doc.pages
        let fonts_used := sortStrings acc.all_fonts
        let extracted_data : BasicExtraction :=
          { page_count := acc.pages_content.length
            text_stats := { total_words := acc.total_words, total_chars := acc.total_chars }
            fonts_used := fonts_used
            images_count := acc.total_images
            metadata := metadata
            pages := acc.pages_content }
        let result : PDFExtractionResult :=
          { file_path := file.path
            file_hash := file_hash
            timestamp := timestamp
            page_count := acc.pages_content.length
            total_words := acc.total_words
            total_chars := acc.total_chars
            fonts_used := fonts_used
            images_count := acc.total_images
            metadata := metadata
            pages := acc.pages_content
            extraction_time := extraction_time
            file_size_mb := file_size_mb
            basic_extraction := extracted_data }
        .ok (result, { st with processed_files := insertNew st.processed_files file_hash })

/-! ## JSON values

`json.dump(asdict(result), ...)` writes the record as a JSON document;
`indent`/`separators` only change inter-token whitespace, which JSON
parsing discards, so both encodings denote the same JSON value.  The
model works at the level of that value. -/

inductive Json where
  | str (s : String)
  | num (q : ℚ)
  | arr (elems : List Json)
  | obj (fields : List (String × Json))

/-- Keys of a JSON object, in writing order (`[]` for non-objects). -/
def topKeys : Json → List String
  | .obj fields => fields.map (fun kv => kv.1)
  | _ => []

def strListJson (l : List String) : Json := .arr (l.map Json.str)

def ratListJson (l : List ℚ) : Json := .arr (l.map Json.num)

def metadataJson (md : List (String × String)) : Json :=
  .obj (md.map fun kv => (kv.1, .str kv.2))

def imageInfoToJson (im : ImageInfo) : Json :=
  .obj [("index", .num im.index), ("width", .num im.width),
        ("height", .num im.height), ("ext", .str im.ext),
        ("size_bytes", .num im.size_bytes)]

/-- JSON encoding of one page dict, keys in insertion order. -/
def pageToJson (p : PageContent) : Json :=
  .obj [("page_number", .num p.page_number), ("text", .str p.text),
        ("word_count", .num p.word_count), ("char_count", .num p.char_count),
        ("fonts", strListJson p.fonts),
        ("images", .arr (p.images.map imageInfoToJson)),
        ("bbox", ratListJson p.bbox)]

def basicToJson (b : BasicExtraction) : Json :=
  .obj [("page_count", .num b.page_count),
        ("text_stats", .obj [("total_words", .num b.text_stats.total_words),
                             ("total_chars", .num b.text_stats.total_chars)]),
        ("fonts_used", strListJson b.fonts_used),
        ("images_count", .num b.images_count),
        ("metadata", metadataJson b.metadata),
        ("pages", .arr (b.pages.map pageToJson))]

/-- JSON encoding of `asdict(result)`: dataclass fields in source order. -/
def resultToJson (r : PDFExtractionResult) : Json :=
  .obj [("file_path", .str r.file_path), ("file_hash", .str r.file_hash),
        ("timestamp", .str r.timestamp), ("page_count", .num r.page_count),
        ("total_words", .num r.total_words), ("total_chars", .num r.total_chars),
        ("fonts_used", strListJson r.fonts_used),
        ("images_count", .num r.images_count),
        ("metadata", metadataJson r.metadata),
        ("pages", .arr (r.pages.map pageToJson)),
        ("extraction_time", .num r.extraction_time),
        ("file_size_mb", .num r.file_size_mb),
        ("basic_extraction", basicToJson r.basic_extraction)]

/-! ## JSON decoding back into records -/

def jStr : Json → Option String
  | .str s => some s
  | _ => none

def jNat : Json → Option Nat
  | .num q => if q.den = 1 ∧ 0 ≤ q.num then some q.num.toNat else none
  | _ => none

def jRat : Json → Option ℚ
  | .num q => some q
  | _ => none

def jStrList : Json → Option (List String)
  | .arr xs => xs.mapM jStr
  | _ => none

def jRatList : Json → Option (List ℚ)
  | .arr xs => xs.mapM jRat
  | _ => none

def imageInfoFromJson : Json → Option ImageInfo
  | .obj [("index", i), ("width", w), ("height", h), ("ext", e),
          ("size_bytes", s)] => do
      let i ← jNat i
      let w ← jNat w
      let h ← jNat h
      let e ← jStr e
      let s ← jNat s
      some ⟨i, w, h, e, s⟩
  | _ => none

def metadataFromJson : Json → Option (List (String × String)) :=
  fun j =>
    match j with
    | .obj fields => fields.mapM (fun kv => (jStr kv.2).map (fun v => (kv.1, v)))
    | _ => none

def pageFromJson : Json → Option PageContent
  | .obj [("page_number", pn), ("text", tx), ("word_count", wc),
          ("char_count", cc), ("fonts", fo), ("images", .arr ims),
          ("bbox", bb)] => do
      let pn ← jNat pn
      let tx ← jStr tx
      let wc ← jNat wc
      let cc ← jNat cc
      let fo ← jStrList fo
      let ims ← ims.mapM imageInfoFromJson
      let bb ← jRatList bb
      some ⟨pn, tx, wc, cc, fo, ims, bb⟩
  | _ => none

def basicFromJson : Json → Option BasicExtraction
  | .obj [("page_count", pc), ("text_stats", .obj [("total_words", tw),
          ("total_chars", tc)]), ("fonts_used", fu), ("images_count", ic),
          ("metadata", md), ("pages", .arr pgs)] => do
      let pc ← jNat pc
      let tw ← jNat tw
      let tc ← jNat tc
      let fu ← jStrList fu
      let ic ← jNat ic
      let md ← metadataFromJson md
      let pgs ← pgs.mapM pageFromJson
      some ⟨pc, ⟨tw, tc⟩, fu, ic, md, pgs⟩
  | _ => none

def jPages : Json → Option (List PageContent)
  | .arr xs => xs.mapM pageFromJson
  | _ => none

/-- Decoding of the last seven object fields, given the six already read. -/
def resultFromJsonRest (fp fh ts pc tw tc : Json) :
    List (String × Json) → Option PDFExtractionResult
  | [("fonts_used", fu), ("images_count", ic), ("metadata", md),
     ("pages", pgs), ("extraction_time", et), ("file_size_mb", fsz),
     ("basic_extraction", be)] => do
      let fp ← jStr fp
      let fh ← jStr fh
      let ts ← jStr ts
      let pc ← jNat pc
      let tw ← jNat tw
      let tc ← jNat tc
      let fu ← jStrList fu
      let ic ← jNat ic
      let md ← metadataFromJson md
      let pgs ← jPages pgs
      let et ← jRat et
      let fsz ← jRat fsz
      let be ← basicFromJson be
      some ⟨fp, fh, ts, pc, tw, tc, fu, ic, md, pgs, et, fsz, be⟩
  | _ => none

def resultFromJson : Json → Option PDFExtractionResult
  | .obj (("file_path", fp) :: ("file_hash", fh) :: ("timestamp", ts)
      :: ("page_count", pc) :: ("total_words", tw) :: ("total_chars", tc) :: rest) =>
      resultFromJsonRest fp fh ts pc tw tc rest
  | _ => none

/-! ## Result Serializer -/

/-- Left-pad a string with zeros to width `w`. -/
def padZeros (w : Nat) (s : String) : String :=
  if s.length < w then String.mk (List.replicate (w - s.length) '0') ++ s else s

/-- Fixed-point rendering with `decimals` fractional digits, modelling
Python `f"{x:.Nf}"` (rounding to nearest; the model uses half-up ties). -/
def fmtFixed (decimals : Nat) (q : ℚ) : String :=
  let p : Int := (10 : Int) ^ decimals
  let t : Int := (q * (p : ℚ) + 1 / 2).floor
  if decimals = 0 then toString t
  else toString (t / p) ++ "." ++ padZeros decimals (toString (t % p).natAbs)

/-- Group a reversed digit list with a comma after every third digit. -/
def groupRev : List Char → Nat → List Char
  | [], _ => []
  | c :: cs, i =>
      c :: ((if (i + 1) % 3 = 0 ∧ cs ≠ [] then [','] else []) ++ groupRev cs (i + 1))

/-- Thousands-separated rendering of a natural, modelling `f"{n:,}"`. -/
def commaNat (n : Nat) : String :=
  String.mk ((groupRev (toString n).toList.reverse 0).reverse)

/-- Thousands-separated rendering of an integer. -/
def commaInt (t : Int) : String :=
  if t < 0 then "-" ++ commaNat t.natAbs else commaNat t.natAbs

/-- Rendering of the processing rate, modelling `f"{rate:,.0f}"`. -/
def fmtRate (q : ℚ) : String :=
  commaInt (q + 1 / 2).floor

/-- The 20-space indentation inside the summary's triple-quoted template. -/
def ind : String := "                    "

def dashes30 : String := String.mk (List.replicate 30 '-')

def equals50 : String := String.mk (List.replicate 50 '=')

/-- Fixed header of the summary report (the initial f-string template). -/
def summaryHeader (r : PDFExtractionResult) : String :=
  "PDF EXTRACTION SUMMARY\n" ++ ind ++ equals50 ++ "\n\n" ++
  ind ++ "File: " ++ pathName r.file_path ++ "\n" ++
  ind ++ "Size: " ++ fmt1 r.file_size_mb ++ " MB\n" ++
  ind ++ "Hash: " ++ r.file_hash.take 16 ++ "...\n" ++
  ind ++ "Processed: " ++ r.timestamp ++ "\n" ++
  ind ++ "Time: " ++ fmtFixed 2 r.extraction_time ++ " seconds\n\n" ++
  ind ++ "CONTENT STATISTICS\n" ++
  ind ++ dashes30 ++ "\n" ++
  ind ++ "Pages: " ++ toString r.page_count ++ "\n" ++
  ind ++ "Words: " ++ commaNat r.total_words ++ "\n" ++
  ind ++ "Characters: " ++ commaNat r.total_chars ++ "\n" ++
  ind ++ "Images: " ++ toString r.images_count ++ "\n" ++
  ind ++ "Fonts: " ++ toString r.fonts_used.length ++ "\n\n" ++
  ind ++ "METADATA\n" ++
  ind ++ dashes30 ++ "\n" ++ ind

/-- `EfficientPDFExtractor._generate_summary_report`, translated
statement by statement (`report` is rebuilt by successive `+=`). -/
def generate_summary_report (r : PDFExtractionResult) : String :=
  let report := summaryHeader r
  let report := r.metadata.foldl
    (fun acc kv => acc ++ (kv.1 ++ ": " ++ kv.2 ++ "\n")) report
  let report :=
    if r.fonts_used.length ≤ 10 then
      r.fonts_used.foldl (fun acc font => acc ++ ("• " ++ font ++ "\n"))
        (report ++ ("\nFONTS USED\n" ++ dashes30 ++ "\n"))
    else report
  let rate : ℚ :=
    if 0 < r.extraction_time then (r.total_words : ℚ) / r.extraction_time else 0
  report ++ ("\nProcessing Rate: " ++ fmtRate rate ++ " words/second\n")

/-- Concatenation of a list of strings. -/
def strConcat (l : List String) : String := l.foldr (fun a b => a ++ b) ""

/-- The header plus all metadata lines: everything the summary report puts
before the (optional) fonts-used section. -/
def summaryLead (r : PDFExtractionResult) : String :=
  summaryHeader r ++ strConcat (r.metadata.map (fun kv => kv.1 ++ ": " ++ kv.2 ++ "\n"))

/-- The fonts-used section: a fixed banner followed by one bulleted line
per font signature (every signature is listed). -/
def fontsUsedSection (fonts : List String) : String :=
  "\nFONTS USED\n" ++ dashes30 ++ "\n" ++
    strConcat (fonts.map (fun font => "• " ++ font ++ "\n"))

/-- The processing rate of the summary report. -/
def summaryRate (r : PDFExtractionResult) : ℚ :=
  if 0 < r.extraction_time then (r.total_words : ℚ) / r.extraction_time else 0

/-- The closing processing-rate line of the summary report. -/
def rateLine (q : ℚ) : String :=
  "\nProcessing Rate: " ++ fmtRate q ++ " words/second\n"

/-- Which textual encoding `json.dump` was invoked with. -/
inductive JsonMode where
  | compact
  | indented
deriving Repr, DecidableEq

/-- Content written by `save_result`, in place of a file-system effect. -/
inductive SaveOutput where
  | jsonFile (mode : JsonMode) (content : Json)
  | summaryFile (content : String)

/-- The mode of a JSON save output, if it is one. -/
def savedJsonMode : SaveOutput → Option JsonMode
  | .jsonFile mode _ => some mode
  | _ => none

/-- The JSON value of a JSON save output, if it is one. -/
def savedJsonContent : SaveOutput → Option Json
  | .jsonFile _ content => some content
  | _ => none

/-- `EfficientPDFExtractor.save_result`.  The current wall-clock timestamp
is an input; the write is modelled by returning the path and content.
A `ValueError` for an unsupported format is the `Except.error` case,
raised before any file is opened. -/
def save_result (st : ExtractorState) (result : PDFExtractionResult)
    (now : String) (format_type : String) : Except String (String × SaveOutput) :=
  let file_stem := pathStem result.file_path
  if pyLower format_type = "json" then
    let output_file := st.output_dir ++ "/" ++ file_stem ++ "_" ++ now ++ ".json"
    if result.file_size_mb > 50 then
      .ok (output_file, .jsonFile .compact (resultToJson result))
    else
      .ok (output_file, .jsonFile .indented (resultToJson result))
  else if pyLower format_type = "summary" then
    let output_file := st.output_dir ++ "/" ++ file_stem ++ "_" ++ now ++ "_summary.txt"
    .ok (output_file, .summaryFile (generate_summary_report result))
  else
    .error ("Unsupported format: " ++ format_type)

/-! ## Batch Orchestrator -/

/-- An input directory: existence flag and its `*.pdf` entries (the
result of `pdf_dir.glob`, in enumeration order). -/
structure BatchDir where
  path : String
  dirExists : Bool
  files : List PdfFile

/-- `EfficientPDFExtractor._process_single_file`: extract then save; any
exception from either step is caught and turned into `none`. -/
def process_single_file (st : ExtractorState) (file : PdfFile)
    (timestamp : String) (extraction_time : ℚ) (save_format : String) :
    Option String × ExtractorState :=
  match extract_pdf_content st file timestamp extraction_time false with
  | .error _ => (none, st)
  | .ok (result, st') =>
      match save_result st' result timestamp save_format with
      | .error _ => (none, st')
      | .ok (path, _) => (some path, st')

/-- Result collection for one completed batch task: a returned path is
appended to the success list, a `None` outcome records the file's path in
the failure list. -/
def batchStep (timestamp : String) (extraction_time : ℚ) (save_format : String)
    (z : List String × List String × ExtractorState) (file : PdfFile) :
    List String × List String × ExtractorState :=
  let r := process_single_file z.2.2 file timestamp extraction_time save_format
  match r.1 with
  | some p => (z.1 ++ [p], z.2.1, r.2)
  | none => (z.1, z.2.1 ++ [file.path], r.2)

/-- `EfficientPDFExtractor.batch_process`.  The worker pool is modelled
sequentially; `as_completed` yields results in an unspecified completion
order, so list-order facts below are read up to that caveat while
membership and counts are order-independent.  Returns the successful
output paths, the failed file paths, and the final extractor state. -/
def batch_process (st : ExtractorState) (dir : BatchDir)
    (timestamp : String) (extraction_time : ℚ) (save_format : String) :
    Except String (List String × List String × ExtractorState) :=
  if dir.dirExists = false then
    .error ("Directory not found: " ++ dir.path)
  else if dir.files.isEmpty then
    .ok ([], [], st)
  else
    .ok (dir.files.foldl (batchStep timestamp extraction_time save_format) ([], [], st))

/-! ## Page-loop lemmas -/

/-- The page record the extraction loop appends at index `i`, if any. -/
def contentAt (e : Bool) (pages : List (Except Unit Page)) (i : Nat) :
    Option PageContent :=
  match pages.getD i (Except.error ()) with
  | .error _ => none
  | .ok page => some (extract_page_content e page i)

theorem foldl_pageStep_spec (e : Bool) (pages : List (Except Unit Page))
    (l : List Nat) : ∀ (acc : Acc),
    (l.foldl (pageStep e pages) acc).pages_content
        = acc.pages_content ++ l.filterMap (contentAt e pages)
    ∧ (l.foldl (pageStep e pages) acc).total_words
        = acc.total_words
            + ((l.filterMap (contentAt e pages)).map (fun p => p.word_count)).sum
    ∧ (l.foldl (pageStep e pages) acc).total_chars
        = acc.total_chars
            + ((l.filterMap (contentAt e pages)).map (fun p => p.char_count)).sum
    ∧ (l.foldl (pageStep e pages) acc).total_images
        = acc.total_images
            + ((l.filterMap (contentAt e pages)).map (fun p => p.images.length)).sum := by
  induction l with
  | nil => intro acc; simp
  | cons i t ih =>
      intro acc
      cases h : pages.getD i (Except.error ()) with
      | error err =>
          have hstep : pageStep e pages acc i = acc := by
            unfold pageStep; rw [h]
          have hca : contentAt e pages i = none := by
            unfold contentAt; rw [h]
          simpa [List.foldl_cons, List.filterMap_cons, hstep, hca] using ih acc
      | ok page =>
          set pc := extract_page_content e page i with hpc
          have hstep : pageStep e pages acc i =
              { total_words := acc.total_words + pc.word_count
                total_chars := acc.total_chars + pc.char_count
                all_fonts := setAddAll acc.all_fonts pc.fonts
                total_images := acc.total_images + pc.images.length
                pages_content := acc.pages_content ++ [pc] } := by
            unfold pageStep; rw [h]
          have hca : contentAt e pages i = some pc := by
            unfold contentAt; rw [h]
          have ihs := ih (pageStep e pages acc i)
          rw [hstep] at ihs
          simp only [List.foldl_cons, List.filterMap_cons, hca, hstep]
          refine ⟨?_, ?_, ?_, ?_⟩
          · rw [ihs.1]; simp
          · rw [ihs.2.1]; simp [Nat.add_assoc]
          · rw [ihs.2.2.1]; simp [Nat.add_assoc]
          · rw [ihs.2.2.2]; simp [Nat.add_assoc]

theorem pageLoop_spec (e : Bool) (pages : List (Except Unit Page)) :
    (pageLoop e pages).pages_content
        = (List.range pages.length).filterMap (contentAt e pages)
    ∧ (pageLoop e pages).total_words
        = (((List.range pages.length).filterMap (contentAt e pages)).map
            (fun p => p.word_count)).sum
    ∧ (pageLoop e pages).total_chars
        = (((List.range pages.length).filterMap (contentAt e pages)).map
            (fun p => p.char_count)).sum
    ∧ (pageLoop e pages).total_images
        = (((List.range pages.length).filterMap (contentAt e pages)).map
            (fun p => p.images.length)).sum := by
  simpa [pageLoop] using
    foldl_pageStep_spec e pages (List.range pages.length) ⟨0, 0, [], 0, []⟩

/-- The record `extract_pdf_content` builds on its success path. -/
def extractResult (st : ExtractorState) (file : PdfFile) (d : PDoc)
    (timestamp : String) (extraction_time : ℚ) : PDFExtractionResult :=
  let metadata : List (String × String) :=
    match d.metadata with
    | .ok raw => cleanMetadata raw
    | .error _ => []
  let acc := pageLoop st.enable_images d.pages
  let fonts_used := sortStrings acc.all_fonts
  { file_path := file.path
    file_hash := file.hash
    timestamp := timestamp
    page_count := acc.pages_content.length
    total_words := acc.total_words
    total_chars := acc.total_chars
    fonts_used := fonts_used
    images_count := acc.total_images
    metadata := metadata
    pages := acc.pages_content
    extraction_time := extraction_time
    file_size_mb := file.size_mb
    basic_extraction :=
      { page_count := acc.pages_content.length
        text_stats := ⟨acc.total_words, acc.total_chars⟩
        fonts_used := fonts_used
        images_count := acc.total_images
        metadata := metadata
        pages := acc.pages_content } }

theorem extract_eq_ok (st : ExtractorState) (file : PdfFile) (ts : String)
    (et : ℚ) (sk : Bool) (d : PDoc)
    (hex : file.fileExists = true) (hdoc : file.doc = Except.ok d) :
    extract_pdf_content st file ts et sk
      = .ok (extractResult st file d ts et,
             { st with processed_files := insertNew st.processed_files file.hash }) := by
  simp [extract_pdf_content, extractResult, hex, hdoc]

/-- C1: for every DocumentRecord returned by `extract_pdf_content`, the
aggregate fields equal sums over its pages: `page_count` is the number of
pages kept, `total_words`/`total_chars` are the sums of the per-page
word/char counts, and `images_count` is the sum of the per-page image-list
lengths. -/
theorem extract_aggregates_match_pages
    (st : ExtractorState) (file : PdfFile) (ts : String) (et : ℚ) (sk : Bool)
    (d : PDoc) (hex : file.fileExists = true) (hdoc : file.doc = Except.ok d) :
    ∃ res st2, extract_pdf_content st file ts et sk = .ok (res, st2)
      ∧ res.page_count = res.pages.length
      ∧ res.total_words = (res.pages.map (fun p => p.word_count)).sum
      ∧ res.total_chars = (res.pages.map (fun p => p.char_count)).sum
      ∧ res.images_count = (res.pages.map (fun p => p.images.length)).sum := by
  have h := pageLoop_spec st.enable_images d.pages
  refine ⟨extractResult st file d ts et, _, extract_eq_ok st file ts et sk d hex hdoc,
    rfl, ?_, ?_, ?_⟩
  · exact h.2.1.trans
      (congrArg (fun l => (List.map (fun p => p.word_count) l).sum) h.1.symm)
  · exact h.2.2.1.trans
      (congrArg (fun l => (List.map (fun p => p.char_count) l).sum) h.1.symm)
  · exact h.2.2.2.trans
      (congrArg (fun l => (List.map (fun p => p.images.length) l).sum) h.1.symm)

/-- Sample page with two spans and one resolvable image. -/
def pgA : Page :=
  { text := "hello brave world"
    textDict := .ok [⟨some [⟨[⟨some "B", some 1⟩, ⟨some "A", some 2⟩]⟩]⟩]
    getImages := .ok [.ok ⟨some 3, some 4, some "png", some [1, 2, 3]⟩, .error ()]
    rect := [0, 0, 10, 10] }

/-- Sample page with no text and a failing image enumeration. -/
def pgB : Page :=
  { text := ""
    textDict := .error ()
    getImages := .error ()
    rect := [0, 0, 8, 8] }

def st1 : ExtractorState := { output_dir := "out", enable_images := true, processed_files := [] }

def file1 : PdfFile :=
  { path := "/tmp/a.pdf", fileExists := true, size_mb := 1, hash := "h1"
    doc := .ok { metadata := .ok [("title", " T "), ("author", "  ")]
                 pages := [.ok pgA, .error (), .ok pgB] } }

theorem extract_aggregates_match_pages_witness :
    ∃ res st2, extract_pdf_content st1 file1 "t" 1 false = .ok (res, st2)
      ∧ res.page_count = res.pages.length
      ∧ res.total_words = (res.pages.map (fun p => p.word_count)).sum
      ∧ res.total_chars = (res.pages.map (fun p => p.char_count)).sum
      ∧ res.images_count = (res.pages.map (fun p => p.images.length)).sum :=
  extract_aggregates_match_pages st1 file1 "t" 1 false _ rfl rfl

/-! ## Page numbering lemmas -/

theorem contentAt_page_number (e : Bool) (pages : List (Except Unit Page)) (i : Nat) :
    Option.map (fun p => p.page_number) (contentAt e pages i)
      = if (pages.getD i (Except.error ())).isOk then some (i + 1) else none := by
  unfold contentAt
  cases h : pages.getD i (Except.error ()) with
  | error err => simp [Except.isOk, Except.toBool]
  | ok page => simp [Except.isOk, Except.toBool, extract_page_content]

theorem map_pageNumbers (e : Bool) (pages : List (Except Unit Page)) (l : List Nat) :
    (l.filterMap (contentAt e pages)).map (fun p => p.page_number)
      = l.filterMap
          (fun i => if (pages.getD i (Except.error ())).isOk then some (i + 1) else none) := by
  rw [List.map_filterMap]
  congr 1
  funext i
  exact contentAt_page_number e pages i

theorem filterMap_guard {α β : Type} (p : α → Bool) (f : α → β) (l : List α) :
    (l.filterMap (fun a => if p a then some (f a) else none)) = (l.filter p).map f := by
  induction l with
  | nil => simp
  | cons a t ih =>
      by_cases h : p a <;> simp [List.filterMap_cons, List.filter_cons, h, ih]

theorem length_filter_bne (n k : Nat) (hk : k < n) :
    ((List.range n).filter (fun i => i != k)).length = n - 1 := by
  have h1 : List.count k (List.range n) = 1 :=
    List.count_eq_one_of_mem (List.nodup_range n) (List.mem_range.mpr hk)
  rw [List.count_eq_countP] at h1
  have h2 := List.length_eq_countP_add_countP (fun i => i == k) (List.range n)
  rw [List.length_range] at h2
  have h3 : List.countP (fun a => decide ¬((a == k) = true)) (List.range n)
      = List.countP (fun i => i != k) (List.range n) := by
    congr 1
    funext a
    by_cases h : a = k <;> simp [h]
  rw [h1, h3, List.countP_eq_length_filter] at h2
  omega

theorem extractResult_pageNumbers (st : ExtractorState) (file : PdfFile)
    (d : PDoc) (ts : String) (et : ℚ) :
    (extractResult st file d ts et).pages.map (fun p => p.page_number)
      = ((List.range d.pages.length).filter
          (fun i => (d.pages.getD i (Except.error ())).isOk)).map (fun i => i + 1) := by
  have h1 := (pageLoop_spec st.enable_images d.pages).1
  show (pageLoop st.enable_images d.pages).pages_content.map (fun p => p.page_number) = _
  rw [h1, map_pageNumbers, filterMap_guard]

/-- C10: each surviving page record carries its original 1-based page
index, so the `page_number` sequence over `pages` is exactly the
successful indices shifted by one, and is strictly increasing. -/
theorem extract_page_numbers_increasing
    (st : ExtractorState) (file : PdfFile) (ts : String) (et : ℚ) (sk : Bool)
    (d : PDoc) (hex : file.fileExists = true) (hdoc : file.doc = Except.ok d) :
    ∃ res st2, extract_pdf_content st file ts et sk = .ok (res, st2)
      ∧ res.pages.map (fun p => p.page_number)
          = ((List.range d.pages.length).filter
              (fun i => (d.pages.getD i (Except.error ())).isOk)).map (fun i => i + 1)
      ∧ List.Pairwise (fun a b => a < b) (res.pages.map (fun p => p.page_number)) := by
  have heq := extractResult_pageNumbers st file d ts et
  refine ⟨extractResult st file d ts et, _, extract_eq_ok st file ts et sk d hex hdoc,
    heq, ?_⟩
  rw [heq]
  have hpw : List.Pairwise (fun a b => a < b)
      ((List.range d.pages.length).filter
        (fun i => (d.pages.getD i (Except.error ())).isOk)) :=
    List.Pairwise.sublist (List.filter_sublist _) (List.pairwise_lt_range _)
  exact List.pairwise_map.mpr (hpw.imp (fun hab => Nat.succ_lt_succ hab))

def pg10 : Page :=
  { text := "one page", textDict := .error (), getImages := .error (), rect := [] }

def st10 : ExtractorState := { output_dir := "o", enable_images := false, processed_files := [] }

def file10 : PdfFile :=
  { path := "b.pdf", fileExists := true, size_mb := 2, hash := "h10"
    doc := .ok { metadata := .error ()
                 pages := [.ok pg10, .error (), .ok pg10, .ok pg10] } }

theorem extract_page_numbers_increasing_witness :
    ∃ res st2, extract_pdf_content st10 file10 "t" 1 false = .ok (res, st2)
      ∧ res.pages.map (fun p => p.page_number)
          = ((List.range 4).filter
              (fun i => (([Except.ok pg10, Except.error (), Except.ok pg10, Except.ok pg10]
                  : List (Except Unit Page)).getD i (Except.error ())).isOk)).map (fun i => i + 1)
      ∧ List.Pairwise (fun a b => a < b) (res.pages.map (fun p => p.page_number)) :=
  extract_page_numbers_increasing st10 file10 "t" 1 false _ rfl rfl

/-- C2: when exactly one page (index `k`) fails, extraction still
succeeds, the failed page is omitted (`page_count` drops by one and `k+1`
is missing from the page numbers), and the records of all other pages are
kept in page order. -/
theorem extract_isolates_single_page_failure
    (st : ExtractorState) (file : PdfFile) (ts : String) (et : ℚ) (sk : Bool)
    (d : PDoc) (k : Nat) (hex : file.fileExists = true)
    (hdoc : file.doc = Except.ok d) (hk : k < d.pages.length)
    (herr : ∀ i ∈ List.range d.pages.length,
      (((d.pages.getD i (Except.error ())).isOk = false) ↔ i = k)) :
    ∃ res st2, extract_pdf_content st file ts et sk = .ok (res, st2)
      ∧ res.page_count = d.pages.length - 1
      ∧ res.pages.map (fun p => p.page_number)
          = ((List.range d.pages.length).filter (fun i => i != k)).map (fun i => i + 1)
      ∧ res.pages
          = (List.range d.pages.length).filterMap (contentAt st.enable_images d.pages) := by
  set res := extractResult st file d ts et with hres
  have hok : extract_pdf_content st file ts et sk
      = .ok (res, { st with processed_files := insertNew st.processed_files file.hash }) :=
    extract_eq_ok st file ts et sk d hex hdoc
  have hmap := extractResult_pageNumbers st file d ts et
  have hfil : (List.range d.pages.length).filter
      (fun i => (d.pages.getD i (Except.error ())).isOk)
      = (List.range d.pages.length).filter (fun i => i != k) := by
    apply List.filter_congr
    intro i hi
    have h := herr i hi
    by_cases hik : i = k
    · have hf : (d.pages.getD i (Except.error ())).isOk = false := h.mpr hik
      rw [hf, hik]
      simp
    · have ht : (d.pages.getD i (Except.error ())).isOk = true := by
        cases hb : (d.pages.getD i (Except.error ())).isOk with
        | false => exact absurd (h.mp hb) hik
        | true => rfl
      rw [ht]
      exact (bne_iff_ne.mpr hik).symm
  have hmap2 : res.pages.map (fun p => p.page_number)
      = ((List.range d.pages.length).filter (fun i => i != k)).map (fun i => i + 1) := by
    rw [hmap, hfil]
  refine ⟨res, _, hok, ?_, hmap2, ?_⟩
  · have hc : res.page_count = res.pages.length := rfl
    have hlen := congrArg List.length hmap2
    rw [List.length_map, List.length_map, length_filter_bne _ _ hk] at hlen
    rw [hc, hlen]
  · show (pageLoop st.enable_images d.pages).pages_content = _
    exact (pageLoop_spec st.enable_images d.pages).1

def st2w : ExtractorState := { output_dir := "o", enable_images := true, processed_files := [] }

def file2w : PdfFile :=
  { path := "c.pdf", fileExists := true, size_mb := 3, hash := "h2"
    doc := .ok { metadata := .ok []
                 pages := [.ok pg10, .ok pg10, .ok pg10, .error (), .ok pg10] } }

theorem extract_isolates_single_page_failure_witness :
    ∃ res st2, extract_pdf_content st2w file2w "t" 1 false = .ok (res, st2)
      ∧ res.page_count = 5 - 1
      ∧ res.pages.map (fun p => p.page_number)
          = ((List.range 5).filter (fun i => i != 3)).map (fun i => i + 1)
      ∧ res.pages = (List.range 5).filterMap
          (contentAt true [Except.ok pg10, Except.ok pg10, Except.ok pg10,
            Except.error (), Except.ok pg10]) :=
  extract_isolates_single_page_failure st2w file2w "t" 1 false _ 3 rfl rfl
    (by decide) (by decide)

/-! ## The Processed-Set is advisory -/

theorem extract_result_ignores_cache (od : String) (ei : Bool)
    (pf1 pf2 : List String) (file : PdfFile) (ts : String) (et : ℚ) (sk : Bool) :
    (extract_pdf_content ⟨od, ei, pf1⟩ file ts et sk).map Prod.fst
      = (extract_pdf_content ⟨od, ei, pf2⟩ file ts et sk).map Prod.fst := by
  cases hex : file.fileExists with
  | false => simp [extract_pdf_content, hex]
  | true =>
      cases hdoc : file.doc with
      | error e => simp [extract_pdf_content, hex, hdoc]
      | ok d =>
          rw [extract_eq_ok ⟨od, ei, pf1⟩ file ts et sk d hex hdoc,
            extract_eq_ok ⟨od, ei, pf2⟩ file ts et sk d hex hdoc]
          rfl

/-- C4: a Processed-Set hit changes logging only: with the file's hash
already in `processed_files`, `extract_pdf_content` still performs the
full extraction and returns the very record it would return with an empty
Processed-Set. -/
theorem extract_cache_hit_is_advisory (st : ExtractorState) (file : PdfFile)
    (ts : String) (et : ℚ) (sk : Bool)
    (hmem : file.hash ∈ st.processed_files) :
    (extract_pdf_content st file ts et sk).map Prod.fst
      = (extract_pdf_content
          { output_dir := st.output_dir, enable_images := st.enable_images,
            processed_files := [] } file ts et sk).map Prod.fst :=
  extract_result_ignores_cache st.output_dir st.enable_images
    st.processed_files [] file ts et sk

def st4 : ExtractorState := { output_dir := "o", enable_images := true, processed_files := ["h4"] }

def file4 : PdfFile :=
  { path := "d.pdf", fileExists := true, size_mb := 1, hash := "h4"
    doc := .ok { metadata := .ok [("k", "v")], pages := [.ok pgA] } }

theorem extract_cache_hit_is_advisory_witness :
    ("h4" ∈ st4.processed_files)
    ∧ (extract_pdf_content st4 file4 "t" 1 false).map Prod.fst
        = (extract_pdf_content
            { output_dir := "o", enable_images := true, processed_files := [] }
            file4 "t" 1 false).map Prod.fst :=
  ⟨by decide, extract_cache_hit_is_advisory st4 file4 "t" 1 false (by decide)⟩

/-! ## Batch orchestration lemmas -/

theorem extract_state_fields (st : ExtractorState) (file : PdfFile)
    (ts : String) (et : ℚ) (sk : Bool) (res : PDFExtractionResult)
    (st2 : ExtractorState)
    (h : extract_pdf_content st file ts et sk = .ok (res, st2)) :
    st2 = { st with processed_files := insertNew st.processed_files file.hash } := by
  cases hex : file.fileExists with
  | false =>
      unfold extract_pdf_content at h
      rw [hex] at h
      simp at h
  | true =>
      cases hdoc : file.doc with
      | error e =>
          unfold extract_pdf_content at h
          rw [hex, hdoc] at h
          simp at h
      | ok d =>
          rw [extract_eq_ok st file ts et sk d hex hdoc] at h
          exact (((Prod.mk.injEq _ _ _ _).mp (Except.ok.inj h)).2).symm

theorem save_result_same_output_dir (st st2 : ExtractorState)
    (r : PDFExtractionResult) (now fmt : String)
    (h : st.output_dir = st2.output_dir) :
    save_result st r now fmt = save_result st2 r now fmt := by
  unfold save_result
  rw [h]

theorem process_single_of_extract_error (st : ExtractorState) (file : PdfFile)
    (ts : String) (et : ℚ) (fmt : String) (e : ExtractErr)
    (h : extract_pdf_content st file ts et false = .error e) :
    process_single_file st file ts et fmt = (none, st) := by
  unfold process_single_file
  rw [h]

theorem process_single_of_extract_ok (st : ExtractorState) (file : PdfFile)
    (ts : String) (et : ℚ) (fmt : String) (r : PDFExtractionResult)
    (s : ExtractorState)
    (h : extract_pdf_content st file ts et false = .ok (r, s)) :
    process_single_file st file ts et fmt
      = (match save_result s r ts fmt with
         | .error _ => (none, s)
         | .ok (path, _) => (some path, s)) := by
  unfold process_single_file
  rw [h]

theorem process_single_outcome_indep (od : String) (ei : Bool)
    (pf : List String) (file : PdfFile) (ts : String) (et : ℚ) (fmt : String) :
    (process_single_file ⟨od, ei, pf⟩ file ts et fmt).1
      = (process_single_file ⟨od, ei, []⟩ file ts et fmt).1 := by
  have hmap := extract_result_ignores_cache od ei pf [] file ts et false
  cases h1 : extract_pdf_content ⟨od, ei, pf⟩ file ts et false with
  | error e1 =>
      cases h2 : extract_pdf_content ⟨od, ei, []⟩ file ts et false with
      | error e2 =>
          rw [process_single_of_extract_error _ _ _ _ _ _ h1,
            process_single_of_extract_error _ _ _ _ _ _ h2]
      | ok p2 => rw [h1, h2] at hmap; simp [Except.map] at hmap
  | ok p1 =>
      obtain ⟨r1, s1⟩ := p1
      cases h2 : extract_pdf_content ⟨od, ei, []⟩ file ts et false with
      | error e2 => rw [h1, h2] at hmap; simp [Except.map] at hmap
      | ok p2 =>
          obtain ⟨r2, s2⟩ := p2
          rw [h1, h2] at hmap
          simp only [Except.map] at hmap
          have hr : r1 = r2 := by
            have := Except.ok.inj hmap
            exact this
          have hs1 := extract_state_fields ⟨od, ei, pf⟩ file ts et false r1 s1 h1
          have hs2 := extract_state_fields ⟨od, ei, []⟩ file ts et false r2 s2 h2
          rw [process_single_of_extract_ok _ _ _ _ _ _ _ h1,
            process_single_of_extract_ok _ _ _ _ _ _ _ h2]
          have hsave : save_result s1 r1 ts fmt = save_result s2 r2 ts fmt := by
            rw [hr]
            exact save_result_same_output_dir _ _ _ _ _ (by rw [hs1, hs2])
          rw [hsave]
          cases hs : save_result s2 r2 ts fmt with
          | error e => rfl
          | ok pa => obtain ⟨pp, oo⟩ := pa; rfl

/-- Outcome of one batch task for a file, independent of the shared
Processed-Set: `none` on failure, the saved output path on success. -/
def fileOutcome (od : String) (ei : Bool) (file : PdfFile)
    (ts : String) (et : ℚ) (fmt : String) : Option String :=
  (process_single_file ⟨od, ei, []⟩ file ts et fmt).1

theorem process_single_state_fields (st : ExtractorState) (file : PdfFile)
    (ts : String) (et : ℚ) (fmt : String) :
    ((process_single_file st file ts et fmt).2).output_dir = st.output_dir
    ∧ ((process_single_file st file ts et fmt).2).enable_images = st.enable_images := by
  cases h : extract_pdf_content st file ts et false with
  | error e =>
      rw [process_single_of_extract_error _ _ _ _ _ _ h]
      exact ⟨rfl, rfl⟩
  | ok p =>
      obtain ⟨r, s⟩ := p
      have hs := extract_state_fields st file ts et false r s h
      rw [process_single_of_extract_ok _ _ _ _ _ _ _ h]
      cases hsv : save_result s r ts fmt with
      | error e2 => simp [hs]
      | ok pa =>
          obtain ⟨path, out⟩ := pa
          simp [hs]

theorem batchStep_reduce (ts : String) (et : ℚ) (fmt : String)
    (outs fails : List String) (s : ExtractorState) (file : PdfFile) :
    batchStep ts et fmt (outs, fails, s) file
      = (match (process_single_file s file ts et fmt).1 with
         | some p => (outs ++ [p], fails, (process_single_file s file ts et fmt).2)
         | none => (outs, fails ++ [file.path], (process_single_file s file ts et fmt).2)) :=
  rfl

theorem length_filterMap_add_filter_none {α β : Type} (g : α → Option β)
    (l : List α) :
    (l.filterMap g).length + (l.filter (fun x => (g x).isNone)).length = l.length := by
  induction l with
  | nil => simp
  | cons a t ih =>
      cases h : g a with
      | none => simp [List.filterMap_cons, List.filter_cons, h]; omega
      | some b => simp [List.filterMap_cons, List.filter_cons, h]; omega

theorem batch_fold_spec (od : String) (ei : Bool) (ts : String) (et : ℚ)
    (fmt : String) (files : List PdfFile) :
    ∀ (outs fails : List String) (s0 : ExtractorState),
      s0.output_dir = od → s0.enable_images = ei →
      (files.foldl (batchStep ts et fmt) (outs, fails, s0)).1
          = outs ++ files.filterMap (fun f => fileOutcome od ei f ts et fmt)
      ∧ (files.foldl (batchStep ts et fmt) (outs, fails, s0)).2.1
          = fails ++ (files.filter
              (fun f => (fileOutcome od ei f ts et fmt).isNone)).map (fun f => f.path) := by
  induction files with
  | nil => intro outs fails s0 hod hei; simp
  | cons f t ih =>
      intro outs fails s0 hod hei
      have hout : (process_single_file s0 f ts et fmt).1
          = fileOutcome od ei f ts et fmt := by
        have hs0 : s0 = ⟨od, ei, s0.processed_files⟩ := by
          cases s0
          simp only at hod hei
          rw [hod, hei]
        rw [hs0]
        exact process_single_outcome_indep od ei s0.processed_files f ts et fmt
      have hfields := process_single_state_fields s0 f ts et fmt
      cases ho : fileOutcome od ei f ts et fmt with
      | some p =>
          have hstep : batchStep ts et fmt (outs, fails, s0) f
              = (outs ++ [p], fails, (process_single_file s0 f ts et fmt).2) := by
            rw [batchStep_reduce, hout, ho]
          rw [List.foldl_cons, hstep]
          have iha := ih (outs ++ [p]) fails ((process_single_file s0 f ts et fmt).2)
            (hfields.1.trans hod) (hfields.2.trans hei)
          refine ⟨?_, ?_⟩
          · rw [iha.1, List.filterMap_cons, ho]
            simp
          · rw [iha.2, List.filter_cons, ho]
            simp
      | none =>
          have hstep : batchStep ts et fmt (outs, fails, s0) f
              = (outs, fails ++ [f.path], (process_single_file s0 f ts et fmt).2) := by
            rw [batchStep_reduce, hout, ho]
          rw [List.foldl_cons, hstep]
          have iha := ih outs (fails ++ [f.path]) ((process_single_file s0 f ts et fmt).2)
            (hfields.1.trans hod) (hfields.2.trans hei)
          refine ⟨?_, ?_⟩
          · rw [iha.1, List.filterMap_cons, ho]
          · rw [iha.2, List.filter_cons, ho]
            simp

/-- C3: over an existing directory the batch never raises because of an
individual file; every failing file is recorded in the failure list and
excluded, and the returned list is exactly the output paths of the files
that succeeded. -/
theorem batch_process_isolates_failures (st : ExtractorState) (dir : BatchDir)
    (ts : String) (et : ℚ) (fmt : String) (hd : dir.dirExists = true) :
    ∃ outs fails st2, batch_process st dir ts et fmt = .ok (outs, fails, st2)
      ∧ outs = dir.files.filterMap
          (fun f => fileOutcome st.output_dir st.enable_images f ts et fmt)
      ∧ fails = (dir.files.filter
          (fun f => (fileOutcome st.output_dir st.enable_images f ts et fmt).isNone)).map
            (fun f => f.path)
      ∧ outs.length + fails.length = dir.files.length := by
  unfold batch_process
  rw [hd]
  by_cases he : dir.files.isEmpty
  · have hnil : dir.files = [] := List.isEmpty_iff.mp he
    refine ⟨[], [], st, by simp [he], ?_, ?_, ?_⟩ <;> simp [hnil]
  · have hb := batch_fold_spec st.output_dir st.enable_images ts et fmt dir.files
      [] [] st rfl rfl
    have h1 : (dir.files.foldl (batchStep ts et fmt) ([], [], st)).1
        = dir.files.filterMap
            (fun f => fileOutcome st.output_dir st.enable_images f ts et fmt) := by
      simpa using hb.1
    have h2 : (dir.files.foldl (batchStep ts et fmt) ([], [], st)).2.1
        = (dir.files.filter
            (fun f => (fileOutcome st.output_dir st.enable_images f ts et fmt).isNone)).map
              (fun f => f.path) := by
      simpa using hb.2
    refine ⟨(dir.files.foldl (batchStep ts et fmt) ([], [], st)).1,
      (dir.files.foldl (batchStep ts et fmt) ([], [], st)).2.1,
      (dir.files.foldl (batchStep ts et fmt) ([], [], st)).2.2,
      by simp [he], h1, h2, ?_⟩
    rw [h1, h2, List.length_map]
    exact length_filterMap_add_filter_none _ _

def fileB1 : PdfFile :=
  { path := "p/x.pdf", fileExists := true, size_mb := 1, hash := "hx"
    doc := .ok { metadata := .ok [], pages := [.ok pg10] } }

def fileB2 : PdfFile :=
  { path := "p/y.pdf", fileExists := false, size_mb := 1, hash := "hy"
    doc := .error () }

def fileB3 : PdfFile :=
  { path := "p/z.pdf", fileExists := true, size_mb := 1, hash := "hz"
    doc := .ok { metadata := .ok [], pages := [.ok pg10, .ok pg10] } }

def dir3 : BatchDir := { path := "p", dirExists := true, files := [fileB1, fileB2, fileB3] }

def st3 : ExtractorState := { output_dir := "o", enable_images := true, processed_files := [] }

theorem batch_process_isolates_failures_witness :
    ∃ outs fails st2, batch_process st3 dir3 "t" 1 "json" = .ok (outs, fails, st2)
      ∧ outs = dir3.files.filterMap (fun f => fileOutcome "o" true f "t" 1 "json")
      ∧ fails = (dir3.files.filter
          (fun f => (fileOutcome "o" true f "t" 1 "json").isNone)).map (fun f => f.path)
      ∧ outs.length + fails.length = dir3.files.length :=
  batch_process_isolates_failures st3 dir3 "t" 1 "json" rfl

/-! ## JSON round-trip lemmas -/

theorem jStr_roundtrip (s : String) : jStr (Json.str s) = some s := rfl

theorem jNat_roundtrip (n : Nat) : jNat (Json.num (n : ℚ)) = some n := by
  simp [jNat, Rat.den_natCast, Rat.num_natCast, Int.toNat_natCast]

theorem mapM_loop_roundtrip {α β : Type} (f : α → β) (g : β → Option α)
    (h : ∀ x, g (f x) = some x) (l : List α) :
    ∀ acc : List α, List.mapM.loop g (l.map f) acc = some (acc.reverse ++ l) := by
  induction l with
  | nil => intro acc; simp [List.mapM.loop]
  | cons a t ih =>
      intro acc
      simp only [List.map_cons, List.mapM.loop, h, Option.bind_eq_bind,
        Option.some_bind, ih (a :: acc), List.reverse_cons]
      simp

theorem mapM_roundtrip {α β : Type} (f : α → β) (g : β → Option α)
    (h : ∀ x, g (f x) = some x) (l : List α) : (l.map f).mapM g = some l := by
  have := mapM_loop_roundtrip f g h l []
  simpa [List.mapM] using this

theorem jStrList_roundtrip (l : List String) : jStrList (strListJson l) = some l := by
  unfold jStrList strListJson
  exact mapM_roundtrip Json.str jStr jStr_roundtrip l

theorem jRatList_roundtrip (l : List ℚ) : jRatList (ratListJson l) = some l := by
  unfold jRatList ratListJson
  exact mapM_roundtrip Json.num jRat (fun q => rfl) l

theorem imageInfo_roundtrip (im : ImageInfo) :
    imageInfoFromJson (imageInfoToJson im) = some im := by
  cases im
  simp [imageInfoToJson, imageInfoFromJson, jNat_roundtrip, jStr_roundtrip]

theorem metadata_roundtrip (md : List (String × String)) :
    metadataFromJson (metadataJson md) = some md := by
  unfold metadataFromJson metadataJson
  exact mapM_roundtrip _ _ (fun kv => by cases kv; simp [jStr]) md

theorem page_roundtrip (p : PageContent) :
    pageFromJson (pageToJson p) = some p := by
  cases p
  simp [pageToJson, pageFromJson, jNat_roundtrip, jStr_roundtrip,
    jStrList_roundtrip, jRatList_roundtrip,
    mapM_loop_roundtrip imageInfoToJson imageInfoFromJson imageInfo_roundtrip,
    mapM_roundtrip imageInfoToJson imageInfoFromJson imageInfo_roundtrip]

theorem basic_roundtrip (b : BasicExtraction) :
    basicFromJson (basicToJson b) = some b := by
  cases b with
  | mk pc tsx fu ic md pgs =>
      cases tsx
      simp [basicToJson, basicFromJson, jNat_roundtrip, jStrList_roundtrip,
        metadata_roundtrip,
        mapM_loop_roundtrip pageToJson pageFromJson page_roundtrip,
        mapM_roundtrip pageToJson pageFromJson page_roundtrip]

theorem jPages_roundtrip (pgs : List PageContent) :
    jPages (Json.arr (pgs.map pageToJson)) = some pgs := by
  unfold jPages
  exact mapM_roundtrip pageToJson pageFromJson page_roundtrip pgs

theorem result_roundtrip (r : PDFExtractionResult) :
    resultFromJson (resultToJson r) = some r := by
  cases r
  simp only [resultToJson, resultFromJson, resultFromJsonRest,
    Option.bind_eq_bind, Option.some_bind, jNat_roundtrip, jStr_roundtrip,
    jStrList_roundtrip, metadata_roundtrip, basic_roundtrip, jRat,
    jPages_roundtrip]

/-! ## Serializer claims -/

theorem save_result_json_eq (st : ExtractorState) (r : PDFExtractionResult)
    (now : String) :
    save_result st r now "json"
      = .ok (st.output_dir ++ "/" ++ pathStem r.file_path ++ "_" ++ now ++ ".json",
             .jsonFile (if r.file_size_mb > 50 then JsonMode.compact else JsonMode.indented)
               (resultToJson r)) := by
  unfold save_result
  rw [show pyLower "json" = "json" from rfl]
  by_cases hq : r.file_size_mb > 50 <;> simp [hq]

/-- C7: the full-format serializer picks its encoding solely by size
(compact when `file_size_mb > 50`, indented otherwise), and the written
JSON value decodes back to the very record that was serialized. -/
theorem save_result_size_switch_roundtrip (st : ExtractorState)
    (r : PDFExtractionResult) (now : String) :
    ∃ path, save_result st r now "json"
        = .ok (path, .jsonFile
            (if r.file_size_mb > 50 then JsonMode.compact else JsonMode.indented)
            (resultToJson r))
      ∧ resultFromJson (resultToJson r) = some r :=
  ⟨_, save_result_json_eq st r now, result_roundtrip r⟩

/-- C9: `save_result` accepts exactly the format selectors whose
lower-casing is `"json"` (the spec's `full` format) or `"summary"`,
returning the written path; any other value raises `ValueError`
(the spec's `UnsupportedFormatError`) and nothing is written. -/
theorem save_result_format_contract (st : ExtractorState)
    (r : PDFExtractionResult) (now fmt : String) :
    (pyLower fmt = "json" ∨ pyLower fmt = "summary" →
        ∃ p out, save_result st r now fmt = .ok (p, out))
    ∧ (pyLower fmt ≠ "json" → pyLower fmt ≠ "summary" →
        save_result st r now fmt = .error ("Unsupported format: " ++ fmt)) := by
  constructor
  · intro h
    unfold save_result
    cases h with
    | inl hj =>
        rw [hj]
        by_cases hq : r.file_size_mb > 50 <;> simp [hq]
    | inr hs =>
        rw [hs]
        simp
  · intro h1 h2
    unfold save_result
    rw [if_neg h1, if_neg h2]

def st9 : ExtractorState := { output_dir := "o", enable_images := true, processed_files := [] }

def r9 : PDFExtractionResult :=
  { file_path := "e.pdf", file_hash := "h", timestamp := "t", page_count := 0
    total_words := 0, total_chars := 0, fonts_used := [], images_count := 0
    metadata := [], pages := [], extraction_time := 1, file_size_mb := 1
    basic_extraction := ⟨0, ⟨0, 0⟩, [], 0, [], []⟩ }

theorem save_result_format_contract_witness :
    (∃ p out, save_result st9 r9 "t" "JSON" = .ok (p, out))
    ∧ save_result st9 r9 "t" "xml" = .error ("Unsupported format: " ++ "xml") :=
  ⟨(save_result_format_contract st9 r9 "t" "JSON").1 (Or.inl rfl),
   (save_result_format_contract st9 r9 "t" "xml").2 (by decide) (by decide)⟩

def st6 : ExtractorState := { output_dir := "o", enable_images := true, processed_files := [] }

def p66 : PageContent := ⟨1, "x", 1, 1, [], [], []⟩

def r66 : PDFExtractionResult :=
  ⟨"a.pdf", "h", "t", 1, 1, 1, [], 0, [], [p66], 1, 1, ⟨1, ⟨1, 1⟩, [], 0, [], [p66]⟩⟩

/-- C6 counterexample: the serialized record does not use the field names
of the spec data model — there is no `extraction_time_seconds` key (the
code writes `extraction_time`), no `bounding_box` key on pages (the code
writes `bbox`), and there is an extra `basic_extraction` field. -/
theorem result_json_field_names_counterexample :
    "extraction_time_seconds" ∉ topKeys (resultToJson r66)
    ∧ "basic_extraction" ∈ topKeys (resultToJson r66)
    ∧ "bounding_box" ∉ topKeys (pageToJson p66)
    ∧ "bbox" ∈ topKeys (pageToJson p66)
    ∧ ∃ path mode, save_result st6 r66 "t" "json" = .ok (path, .jsonFile mode (resultToJson r66)) :=
  ⟨by decide, by decide, by decide, by decide, _, _, save_result_json_eq st6 r66 "t"⟩

/-- C6 amended: the full structured dump of every record carries exactly
the dataclass field names `file_path, file_hash, timestamp, page_count,
total_words, total_chars, fonts_used, images_count, metadata, pages,
extraction_time, file_size_mb, basic_extraction`, and every serialized
page carries exactly `page_number, text, word_count, char_count, fonts,
images, bbox`. -/
theorem result_json_field_names (st : ExtractorState)
    (r : PDFExtractionResult) (now : String) :
    ∃ path mode, save_result st r now "json" = .ok (path, .jsonFile mode (resultToJson r))
    ∧ topKeys (resultToJson r)
        = ["file_path", "file_hash", "timestamp", "page_count", "total_words",
           "total_chars", "fonts_used", "images_count", "metadata", "pages",
           "extraction_time", "file_size_mb", "basic_extraction"]
    ∧ ∀ p, topKeys (pageToJson p)
        = ["page_number", "text", "word_count", "char_count", "fonts",
           "images", "bbox"] :=
  ⟨_, _, save_result_json_eq st r now, by simp [resultToJson, topKeys],
   fun p => by simp [pageToJson, topKeys]⟩

theorem foldl_append_str {α : Type} (f : α → String) (l : List α) :
    ∀ init : String,
      l.foldl (fun acc x => acc ++ f x) init = init ++ strConcat (l.map f) := by
  induction l with
  | nil => intro init; simp [strConcat]
  | cons a t ih =>
      intro init
      rw [List.foldl_cons, ih (init ++ f a), List.map_cons,
        show strConcat (f a :: List.map f t) = f a ++ strConcat (List.map f t) from rfl,
        String.append_assoc]

/-- C8: the summary report is the header-plus-metadata prefix, then the
fonts-used section (listing every signature) exactly when
`len(fonts_used) ≤ 10` and nothing in its place otherwise, then the
processing-rate line; the rate is `total_words / extraction_time`, and 0
when the time is 0. -/
theorem summary_fonts_cutoff_and_rate (r : PDFExtractionResult) :
    generate_summary_report r
      = summaryLead r
        ++ ((if r.fonts_used.length ≤ 10 then fontsUsedSection r.fonts_used else "")
          ++ rateLine (summaryRate r))
    ∧ summaryRate r
        = (if 0 < r.extraction_time then (r.total_words : ℚ) / r.extraction_time else 0) := by
  constructor
  · simp only [generate_summary_report, summaryLead, fontsUsedSection,
      rateLine, summaryRate]
    by_cases hf : r.fonts_used.length ≤ 10
    · rw [if_pos hf, if_pos hf, foldl_append_str, foldl_append_str]
      simp [String.append_assoc]
    · rw [if_neg hf, if_neg hf, foldl_append_str]
      simp [String.append_assoc]
  · rfl

/-! ## Page-font claims -/

theorem insertNew_mem (l : List String) (x y : String) :
    y ∈ insertNew l x ↔ y ∈ l ∨ y = x := by
  unfold insertNew
  by_cases h : x ∈ l
  · simp only [if_pos h]
    constructor
    · exact Or.inl
    · rintro (hy | rfl)
      · exact hy
      · exact h
  · simp [if_neg h]

theorem insertNew_nodup (l : List String) (x : String) (h : l.Nodup) :
    (insertNew l x).Nodup := by
  unfold insertNew
  by_cases hm : x ∈ l
  · simpa [hm] using h
  · rw [if_neg hm]
    refine List.Nodup.append h (List.nodup_singleton x) ?_
    intro a ha hax
    rw [List.mem_singleton] at hax
    exact hm (hax ▸ ha)

theorem foldl_nodup_preserve {α : Type} (g : List String → α → List String)
    (hg : ∀ acc a, acc.Nodup → (g acc a).Nodup) (l : List α) :
    ∀ acc : List String, acc.Nodup → (l.foldl g acc).Nodup := by
  induction l with
  | nil => intro acc h; simpa using h
  | cons a t ih => intro acc h; exact ih (g acc a) (hg acc a h)

theorem spanFold_mem (spans : List Span) :
    ∀ (acc : List String) (y : String),
      (y ∈ spans.foldl (fun acc span => insertNew acc (fontSignature span)) acc
        ↔ y ∈ acc ∨ ∃ sp ∈ spans, y = fontSignature sp) := by
  induction spans with
  | nil => intro acc y; simp
  | cons s t ih =>
      intro acc y
      rw [List.foldl_cons, ih, insertNew_mem]
      constructor
      · rintro ((hy | hy) | ⟨sp, hsp, hy⟩)
        · exact Or.inl hy
        · exact Or.inr ⟨s, List.mem_cons_self s t, hy⟩
        · exact Or.inr ⟨sp, List.mem_cons_of_mem s hsp, hy⟩
      · rintro (hy | ⟨sp, hsp, hy⟩)
        · exact Or.inl (Or.inl hy)
        · rcases List.mem_cons.mp hsp with rfl | hsp2
          · exact Or.inl (Or.inr hy)
          · exact Or.inr ⟨sp, hsp2, hy⟩

theorem lineFold_mem (lines : List Line) :
    ∀ (acc : List String) (y : String),
      (y ∈ lines.foldl
          (fun acc line =>
            line.spans.foldl (fun acc span => insertNew acc (fontSignature span)) acc)
          acc
        ↔ y ∈ acc ∨ ∃ ln ∈ lines, ∃ sp ∈ ln.spans, y = fontSignature sp) := by
  induction lines with
  | nil => intro acc y; simp
  | cons ln t ih =>
      intro acc y
      rw [List.foldl_cons, ih, spanFold_mem]
      constructor
      · rintro ((hy | ⟨sp, hsp, hy⟩) | ⟨ln2, hln2, sp, hsp, hy⟩)
        · exact Or.inl hy
        · exact Or.inr ⟨ln, List.mem_cons_self ln t, sp, hsp, hy⟩
        · exact Or.inr ⟨ln2, List.mem_cons_of_mem ln hln2, sp, hsp, hy⟩
      · rintro (hy | ⟨ln2, hln2, sp, hsp, hy⟩)
        · exact Or.inl (Or.inl hy)
        · rcases List.mem_cons.mp hln2 with rfl | hln3
          · exact Or.inl (Or.inr ⟨sp, hsp, hy⟩)
          · exact Or.inr ⟨ln2, hln3, sp, hsp, hy⟩

theorem blockFold_mem (blocks : List Block) :
    ∀ (acc : List String) (y : String),
      (y ∈ blocks.foldl
          (fun acc block =>
            match block.lines? with
            | some lines =>
                lines.foldl
                  (fun acc line =>
                    line.spans.foldl (fun acc span => insertNew acc (fontSignature span)) acc)
                  acc
            | none => acc)
          acc
        ↔ y ∈ acc ∨ ∃ b ∈ blocks, ∃ ls, b.lines? = some ls
            ∧ ∃ ln ∈ ls, ∃ sp ∈ ln.spans, y = fontSignature sp) := by
  induction blocks with
  | nil => intro acc y; simp
  | cons b t ih =>
      intro acc y
      rw [List.foldl_cons]
      cases hb : b.lines? with
      | none =>
          rw [ih]
          constructor
          · rintro (hy | ⟨b2, hb2, hrest⟩)
            · exact Or.inl hy
            · exact Or.inr ⟨b2, List.mem_cons_of_mem b hb2, hrest⟩
          · rintro (hy | ⟨b2, hb2, ls, hls, hrest⟩)
            · exact Or.inl hy
            · rcases List.mem_cons.mp hb2 with rfl | hb3
              · rw [hb] at hls; exact absurd hls (by simp)
              · exact Or.inr ⟨b2, hb3, ls, hls, hrest⟩
      | some ls =>
          rw [ih, lineFold_mem]
          constructor
          · rintro ((hy | ⟨ln, hln, sp, hsp, hy⟩) | ⟨b2, hb2, ls2, hls2, hrest⟩)
            · exact Or.inl hy
            · exact Or.inr ⟨b, List.mem_cons_self b t, ls, hb, ln, hln, sp, hsp, hy⟩
            · exact Or.inr ⟨b2, List.mem_cons_of_mem b hb2, ls2, hls2, hrest⟩
          · rintro (hy | ⟨b2, hb2, ls2, hls2, hrest⟩)
            · exact Or.inl (Or.inl hy)
            · rcases List.mem_cons.mp hb2 with rfl | hb3
              · rw [hb] at hls2
                obtain rfl : ls = ls2 := Option.some.inj hls2
                exact Or.inl (Or.inr hrest)
              · exact Or.inr ⟨b2, hb3, ls2, hls2, hrest⟩

theorem collectFonts_mem (blocks : List Block) (y : String) :
    y ∈ collectFonts blocks
      ↔ ∃ b ∈ blocks, ∃ ls, b.lines? = some ls
          ∧ ∃ ln ∈ ls, ∃ sp ∈ ln.spans, y = fontSignature sp := by
  unfold collectFonts
  rw [blockFold_mem]
  simp

theorem collectFonts_nodup (blocks : List Block) : (collectFonts blocks).Nodup := by
  unfold collectFonts
  apply foldl_nodup_preserve
  · intro acc b hacc
    cases hb : b.lines? with
    | none => simpa using hacc
    | some ls =>
        exact foldl_nodup_preserve _
          (fun acc2 ln hacc2 =>
            foldl_nodup_preserve _
              (fun a sp h2 => insertNew_nodup a (fontSignature sp) h2)
              ln.spans acc2 hacc2)
          ls acc hacc
  · exact List.nodup_nil

/-- C5 amended: for a page whose text is non-empty and contains at least
one word, when the structured text is readable the Page Extractor derives
the signature `"<font-name> (<size, one decimal>pt)"` for every span and
stores the set of distinct signatures in the `fonts` field — as a
duplicate-free sequence in set-enumeration order, not sorted. -/
theorem page_fonts_are_distinct_span_signatures (e : Bool) (page : Page)
    (i : Nat) (blocks : List Block) (htext : page.text ≠ "")
    (hwc : 0 < pyWordCount page.text) (hdict : page.textDict = .ok blocks) :
    (extract_page_content e page i).fonts.Nodup
    ∧ ∀ f, f ∈ (extract_page_content e page i).fonts
        ↔ ∃ b ∈ blocks, ∃ ls, b.lines? = some ls
            ∧ ∃ ln ∈ ls, ∃ sp ∈ ln.spans, f = fontSignature sp := by
  have hshape : (extract_page_content e page i).fonts
      = (if page.text ≠ "" ∧ 0 < (if page.text = "" then 0 else pyWordCount page.text) then
          match page.textDict with
          | .ok blocks => collectFonts blocks
          | .error _ => []
        else []) := rfl
  have hfonts : (extract_page_content e page i).fonts = collectFonts blocks := by
    rw [hshape, if_neg htext, hdict, if_pos ⟨htext, hwc⟩]
  rw [hfonts]
  exact ⟨collectFonts_nodup blocks, fun f => collectFonts_mem blocks f⟩

def pgC5a : Page :=
  { text := "hello world"
    textDict := .ok [⟨some [⟨[⟨some "B", some 1⟩, ⟨some "A", some 2⟩]⟩]⟩]
    getImages := .error ()
    rect := [] }

def pgC5b : Page :=
  { text := " "
    textDict := .ok [⟨some [⟨[⟨some "B", some 1⟩]⟩]⟩]
    getImages := .error ()
    rect := [] }

theorem fmt1_one : fmt1 1 = "1.0" := by
  unfold fmt1
  rw [show ((1 : ℚ) * 10 + 1 / 2 : ℚ) = 21 / 2 from by norm_num]
  rw [show ((21 : ℚ) / 2).floor = 10 from by rw [Rat.floor_def']; norm_num]
  rfl

theorem fmt1_two : fmt1 2 = "2.0" := by
  unfold fmt1
  rw [show ((2 : ℚ) * 10 + 1 / 2 : ℚ) = 41 / 2 from by norm_num]
  rw [show ((41 : ℚ) / 2).floor = 20 from by rw [Rat.floor_def']; norm_num]
  rfl

theorem fontSignature_B : fontSignature ⟨some "B", some 1⟩ = "B (1.0pt)" := by
  have h : fontSignature ⟨some "B", some 1⟩ = "B" ++ " (" ++ fmt1 1 ++ "pt)" := rfl
  rw [h, fmt1_one]
  rfl

theorem fontSignature_A : fontSignature ⟨some "A", some 2⟩ = "A (2.0pt)" := by
  have h : fontSignature ⟨some "A", some 2⟩ = "A" ++ " (" ++ fmt1 2 ++ "pt)" := rfl
  rw [h, fmt1_two]
  rfl

/-- C5 counterexample: the page-level `fonts` sequence is not sorted (the
code converts the set to a list without sorting — `B (1.0pt)` stays ahead
of `A (2.0pt)`), and a page of whitespace-only text (non-empty, zero
words) is not consulted for fonts at all. -/
theorem page_fonts_not_sorted_counterexample :
    (extract_page_content true pgC5a 0).fonts = ["B (1.0pt)", "A (2.0pt)"]
    ∧ ¬ ("B (1.0pt)" ≤ "A (2.0pt)")
    ∧ pgC5b.text ≠ ""
    ∧ (extract_page_content true pgC5b 0).fonts = [] := by
  refine ⟨?_, ?_, by decide, ?_⟩
  · have step : (extract_page_content true pgC5a 0).fonts
        = insertNew (insertNew [] (fontSignature ⟨some "B", some 1⟩))
            (fontSignature ⟨some "A", some 2⟩) := rfl
    rw [step, fontSignature_B, fontSignature_A]
    rfl
  · rw [String.le_iff_toList_le]
    decide
  · rfl

theorem page_fonts_are_distinct_span_signatures_witness :
    (extract_page_content true pgC5a 0).fonts.Nodup
    ∧ ∀ f, f ∈ (extract_page_content true pgC5a 0).fonts
        ↔ ∃ b ∈ [(⟨some [⟨[⟨some "B", some 1⟩, ⟨some "A", some 2⟩]⟩]⟩ : Block)],
            ∃ ls, b.lines? = some ls
            ∧ ∃ ln ∈ ls, ∃ sp ∈ ln.spans, f = fontSignature sp :=
  page_fonts_are_distinct_span_signatures true pgC5a 0
    [⟨some [⟨[⟨some "B", some 1⟩, ⟨some "A", some 2⟩]⟩]⟩]
    (by decide) (by decide) rfl

end PdfPipeline
